import Mathlib

/-
  Shallow embedding of the PowerSchool API client, centred on
  src/models/PowerSchoolUser.js (the fetch orchestrator `getStudentInfo`).

  Modelling conventions:
  - JavaScript objects used as integer-keyed dictionaries are association
    lists (`JsIntObj`), with last-write-wins insertion and `Object.values`
    returning values in ascending numeric key order, as JS does for
    integer-like keys.
  - The per-entity `fromData` decoders live in modules that are not part of
    the source under review; following the spec (section 4.1, Record
    Decoder), decoding one raw element yields one typed record carrying the
    identifier and foreign-key fields, so raw and decoded records are
    identified here and `fromData` is the identity on those fields.
  - Promise resolution and rejection become an explicit `FetchResult`;
    object identity of the mutable `PowerSchoolStudentInfo` becomes a
    reference (`Nat`) into an explicit heap.
-/

namespace PowerSchool

/-- Modelled from the spec: decoded teacher record (Record Decoder output);
only the identifier is relevant to the cache claims. -/
structure Teacher where
  id : Nat
  deriving DecidableEq, Repr

/-- Modelled from the spec: decoded term record. -/
structure Term where
  id : Nat
  deriving DecidableEq, Repr

/-- Modelled from the spec: decoded reporting-term record. -/
structure ReportingTerm where
  id : Nat
  deriving DecidableEq, Repr

/-- Modelled from the spec: decoded period record. -/
structure Period where
  id : Nat
  deriving DecidableEq, Repr

/-- Modelled from the spec: decoded course record (decoded from a payload
`sections` element). -/
structure Course where
  id : Nat
  deriving DecidableEq, Repr

/-- Modelled from the spec: decoded final-grade record with its course
foreign key. -/
structure FinalGrade where
  id : Nat
  courseID : Nat
  deriving DecidableEq, Repr

/-- Modelled from the spec: decoded assignment-score record with its
assignment foreign key. -/
structure AssignmentScore where
  id : Nat
  assignmentID : Nat
  deriving DecidableEq, Repr

/-- Modelled from the spec: decoded attendance-code record. -/
structure AttendanceCode where
  id : Nat
  deriving DecidableEq, Repr

/-- Modelled from the spec: decoded assignment record with its category
foreign key. -/
structure Assignment where
  id : Nat
  categoryID : Nat
  deriving DecidableEq, Repr

/-- Modelled from the spec: raw assignment-category payload element. -/
structure RawCategory where
  id : Nat
  name : String
  deriving DecidableEq, Repr

/-- Modelled from the spec: decoded assignment category; its `assignments`
list is populated post-hoc by the fetch orchestrator (spec section 3,
Assignment Category aggregate; index.d.ts `PowerSchoolAssignmentCategory`). -/
structure AssignmentCategory where
  id : Nat
  name : String
  assignments : List Assignment
  deriving DecidableEq, Repr

/-- Modelled from the spec: decoded not-in-session-day event record. -/
structure Event where
  id : Nat
  deriving DecidableEq, Repr

/-- Modelled from the spec: decoded attendance record. -/
structure AttendanceRecord where
  id : Nat
  deriving DecidableEq, Repr

/-- Modelled from the spec: decoded basic student record. -/
structure Student where
  id : Nat
  deriving DecidableEq, Repr

/-- Modelled from the spec: raw school payload element; `schoolNumber` is
the cache key field named at the `storeCacheInfo` call site. -/
structure RawSchool where
  schoolNumber : Nat
  deriving DecidableEq, Repr

/-- The `schools` field of the raw payload: the foreign service sometimes
sends one school object and sometimes an array of them
(src/models/PowerSchoolUser.js line 65). -/
inductive RawSchools where
  | obj (s : RawSchool)
  | arr (ss : List RawSchool)
  deriving DecidableEq, Repr

/-- A value produced by applying `PowerSchoolSchool.fromData` to a JS value:
either a proper decode of one school object, or the junk record JS produces
when `fromData` is handed an array value (property reads on an array come
back undefined). -/
inductive SchoolVal where
  | ofObj (o : RawSchool)
  | ofArray (ss : List RawSchool)
  deriving DecidableEq, Repr

/-- JS `typeof` on the `schools` field. In JavaScript `typeof` yields
"object" for plain objects and for arrays alike; it never yields "array". -/
def jsTypeofSchools : RawSchools → String
  | .obj _ => "object"
  | .arr _ => "object"

/-- The value of `data.schools` read as an array, as the true branch of the
ternary on line 65 would use it. The `obj` case would throw in JS (`.map` on
a non-array); it is unreachable because `jsTypeofSchools` never returns
"array", and is given a harmless value here. -/
def RawSchools.asArray : RawSchools → List RawSchool
  | .obj o => [o]
  | .arr ss => ss

/-- `PowerSchoolSchool.fromData` applied to whatever `data.schools` holds. -/
def SchoolVal.fromWhole : RawSchools → SchoolVal
  | .obj o => .ofObj o
  | .arr ss => .ofArray ss

/-- Line 65 of src/models/PowerSchoolUser.js:
`(typeof data.schools === "array" ? data.schools : [data.schools]).map(fromData)`. -/
def decodeSchools (s : RawSchools) : List SchoolVal :=
  if jsTypeofSchools s = "array" then
    s.asArray.map (fun o => SchoolVal.ofObj o)
  else
    [SchoolVal.fromWhole s]

/-- Identity decoders, standing for the per-entity `fromData` calls on lines
66 to 74; see the modelling note at the top of the file. -/
def Teacher.fromData (t : Teacher) : Teacher := t

/-- Identity decoder for terms (line 67). -/
def Term.fromData (t : Term) : Term := t

/-- Identity decoder for reporting terms (line 68). -/
def ReportingTerm.fromData (t : ReportingTerm) : ReportingTerm := t

/-- Identity decoder for assignments (line 69). -/
def Assignment.fromData (a : Assignment) : Assignment := a

/-- Identity decoder for assignment scores (line 70). -/
def AssignmentScore.fromData (s : AssignmentScore) : AssignmentScore := s

/-- Identity decoder for attendance codes (line 71). -/
def AttendanceCode.fromData (c : AttendanceCode) : AttendanceCode := c

/-- Identity decoder for periods (line 72). -/
def Period.fromData (p : Period) : Period := p

/-- Identity decoder for courses (line 73, decoding `data.sections`). -/
def Course.fromData (c : Course) : Course := c

/-- Identity decoder for final grades (line 74). -/
def FinalGrade.fromData (g : FinalGrade) : FinalGrade := g

/-- Identity decoder for not-in-session-day events (line 101). -/
def Event.fromData (e : Event) : Event := e

/-- Identity decoder for attendance records (line 105). -/
def AttendanceRecord.fromData (r : AttendanceRecord) : AttendanceRecord := r

/-- Identity decoder for the basic student record (line 102). -/
def Student.fromData (s : Student) : Student := s

/-- Modelled from the spec: `PowerSchoolAssignmentCategory.fromData` decodes
one raw category into a record whose `assignments` list starts empty and is
filled by the aggregation step (spec sections 3 and 4.3). -/
def AssignmentCategory.fromData (r : RawCategory) : AssignmentCategory :=
  { id := r.id, name := r.name, assignments := [] }

/-- A JavaScript object used as an integer-keyed dictionary, as an
association list of key-value pairs in insertion order. -/
abbrev JsIntObj (α : Type) : Type := List (Nat × α)

namespace JsIntObj

variable {α : Type}

/-- The empty JS object. -/
def empty : JsIntObj α := ([] : List (Nat × α))

/-- Property read `m[k]`: `some` the stored value, or `none` (undefined). -/
def get? (m : JsIntObj α) (k : Nat) : Option α :=
  (List.find? (fun p => p.1 = k) m).map (fun p => p.2)

/-- Property write `m[k] = v`: overwrite in place when the key exists
(JS object keys are unique), otherwise add the new key at the end. -/
def set : JsIntObj α → Nat → α → JsIntObj α
  | [], k, v => [(k, v)]
  | p :: t, k, v => if p.1 = k then (k, v) :: t else p :: set t k v

/-- The keys of the object. -/
def keys (m : JsIntObj α) : List Nat :=
  List.map (fun p => p.1) m

/-- Insert one pair into a key-sorted association list. -/
def insertSorted (p : Nat × α) : List (Nat × α) → List (Nat × α)
  | [] => [p]
  | q :: t => if p.1 ≤ q.1 then p :: q :: t else q :: insertSorted p t

/-- Sort an association list by ascending key. -/
def sortByKey : List (Nat × α) → List (Nat × α)
  | [] => []
  | p :: t => insertSorted p (sortByKey t)

/-- JS `Object.values(m)`: for integer-like keys, JavaScript enumerates
properties in ascending numeric key order. -/
def values (m : JsIntObj α) : List α :=
  List.map (fun p => p.2) (sortByKey m)

end JsIntObj

/-- Line 79, mutation step: `assignmentCategories[k].assignments.push(a)`.
Updates the category stored at key `k` in place; a missing key is a no-op
(the source filters such assignments out before pushing). -/
def pushAssignment (m : JsIntObj AssignmentCategory) (k : Nat) (a : Assignment) :
    JsIntObj AssignmentCategory :=
  List.map (fun p =>
    if p.1 = k then (p.1, { p.2 with assignments := p.2.assignments ++ [a] }) else p) m

/-- Lines 77 and 78: build the categories dictionary keyed by category id. -/
def decodeCategories (raws : List RawCategory) : JsIntObj AssignmentCategory :=
  raws.foldl (fun m r => m.set r.id (AssignmentCategory.fromData r)) JsIntObj.empty

/-- Line 79: `assignments.filter((a) => assignmentCategories[a.categoryID])
.forEach((a) => assignmentCategories[a.categoryID].assignments.push(a))`,
run after line 78 built the dictionary. -/
def aggregateCategories (raws : List RawCategory) (asgs : List Assignment) :
    JsIntObj AssignmentCategory :=
  let m := decodeCategories raws
  (asgs.filter (fun a => (m.get? a.categoryID).isSome)).foldl
    (fun acc a => pushAssignment acc a.categoryID a) m

/-- The flat payload `result.return.studentDataVOs` (spec section 6,
RawPayload), with the fields `getStudentInfo` reads. -/
structure StudentDataVOs where
  schools : RawSchools
  teachers : List Teacher
  terms : List Term
  reportingTerms : List ReportingTerm
  assignments : List Assignment
  assignmentScores : List AssignmentScore
  attendanceCodes : List AttendanceCode
  periods : List Period
  sections : List Course
  finalGrades : List FinalGrade
  assignmentCategories : List RawCategory
  notInSessionDays : List Event
  student : Student
  attendance : List AttendanceRecord
  yearId : Nat
  deriving DecidableEq, Repr

/-- The `return` member of the transport result; its `studentDataVOs` member
may be absent. -/
structure ReturnVO where
  studentDataVOs : Option StudentDataVOs
  deriving DecidableEq, Repr

/-- The transport result object handed to the callback; its `return` member
may be absent. -/
structure GetStudentDataResult where
  ret : Option ReturnVO
  deriving DecidableEq, Repr

/-- An opaque transport error value (the `err` callback argument). -/
structure JsErr where
  msg : String
  deriving DecidableEq, Repr

/-- Line 61 and 62: the guard `!result || !result.return ||
!result.return.studentDataVOs` followed by taking
`result.return.studentDataVOs`; `none` means the guard fired. -/
def payloadOf (result : Option GetStudentDataResult) : Option StudentDataVOs :=
  match result with
  | none => none
  | some r =>
    match r.ret with
    | none => none
    | some rv => rv.studentDataVOs

/-- The records passed to one `storeCacheInfo` call, tagged by collection. -/
inductive StoredRecords where
  | teachers (l : List Teacher)
  | schools (l : List SchoolVal)
  | periods (l : List Period)
  | courses (l : List Course)
  | finalGrades (l : List FinalGrade)
  | terms (l : List Term)
  | reportingTerms (l : List ReportingTerm)
  | assignmentCategories (l : List AssignmentCategory)
  | assignments (l : List Assignment)
  | assignmentScores (l : List AssignmentScore)
  | attendanceCodes (l : List AttendanceCode)
  deriving DecidableEq, Repr

/-- One call `storeCacheInfo(records, name, keyField?)`; `keyField = none`
when the call site omits the argument. -/
structure StoreCall where
  records : StoredRecords
  name : String
  keyField : Option String
  deriving DecidableEq, Repr

/-- Modelled from the spec: `storeCacheInfo` (defined outside the reviewed
source) defaults its key field to "id" when the call site omits it (spec
section 4.2, `store(collectionName, records, keyField = "id")`). -/
def StoreCall.resolvedKey (c : StoreCall) : String :=
  c.keyField.getD "id"

/-- Lines 82 to 92: the eleven `storeCacheInfo` calls of a successful fetch,
in source order, with the records and key fields each call passes. -/
def storeCalls (d : StudentDataVOs) : List StoreCall :=
  let assignments := d.assignments.map Assignment.fromData
  let cats := aggregateCategories d.assignmentCategories assignments
  [ { records := .teachers (d.teachers.map Teacher.fromData),
      name := "teachers", keyField := none },
    { records := .schools (decodeSchools d.schools),
      name := "schools", keyField := some "schoolNumber" },
    { records := .periods (d.periods.map Period.fromData),
      name := "periods", keyField := none },
    { records := .courses (d.sections.map Course.fromData),
      name := "courses", keyField := none },
    { records := .finalGrades (d.finalGrades.map FinalGrade.fromData),
      name := "finalGrades", keyField := some "courseID" },
    { records := .terms (d.terms.map Term.fromData),
      name := "terms", keyField := none },
    { records := .reportingTerms (d.reportingTerms.map ReportingTerm.fromData),
      name := "reportingTerms", keyField := none },
    { records := .assignmentCategories cats.values,
      name := "assignmentCategories", keyField := none },
    { records := .assignments assignments,
      name := "assignments", keyField := none },
    { records := .assignmentScores (d.assignmentScores.map AssignmentScore.fromData),
      name := "assignmentScores", keyField := some "assignmentID" },
    { records := .attendanceCodes (d.attendanceCodes.map AttendanceCode.fromData),
      name := "attendanceCodes", keyField := none } ]

/-- The mutable `PowerSchoolStudentInfo` object. Modelled from the spec and
index.d.ts: its fields are exactly those declared on
`PowerSchoolStudentInfo` (the same thirteen fields lines 95 to 107 assign);
a freshly constructed instance has every field undefined (`none`). -/
structure StudentInfo where
  schools : Option (List SchoolVal) := none
  teachers : Option (List Teacher) := none
  periods : Option (List Period) := none
  courses : Option (List Course) := none
  terms : Option (List Term) := none
  reportingTerms : Option (List ReportingTerm) := none
  notInSessionDays : Option (List Event) := none
  student : Option Student := none
  yearID : Option Nat := none
  assignmentCategories : Option (List AssignmentCategory) := none
  attendanceRecords : Option (List AttendanceRecord) := none
  attendanceCodes : Option (List AttendanceCode) := none
  finalGrades : Option (List FinalGrade) := none
  deriving DecidableEq, Repr

/-- The field names of `PowerSchoolStudentInfo` (index.d.ts), which are also
exactly the fields lines 95 to 107 of src/models/PowerSchoolUser.js assign. -/
def studentInfoFields : List String :=
  ["schools", "teachers", "periods", "courses", "terms", "reportingTerms",
   "notInSessionDays", "student", "yearID", "assignmentCategories",
   "attendanceRecords", "attendanceCodes", "finalGrades"]

/-- Lines 95 to 107: the in-place field assignments a successful fetch makes
on the existing `this.studentData` object. -/
def updateStudentData (old : StudentInfo) (d : StudentDataVOs) : StudentInfo :=
  let assignments := d.assignments.map Assignment.fromData
  let cats := aggregateCategories d.assignmentCategories assignments
  { old with
    schools := some (decodeSchools d.schools),
    teachers := some (d.teachers.map Teacher.fromData),
    periods := some (d.periods.map Period.fromData),
    courses := some (d.sections.map Course.fromData),
    terms := some (d.terms.map Term.fromData),
    reportingTerms := some (d.reportingTerms.map ReportingTerm.fromData),
    notInSessionDays := some (d.notInSessionDays.map Event.fromData),
    student := some (Student.fromData d.student),
    yearID := some d.yearId,
    assignmentCategories := some cats.values,
    attendanceRecords := some (d.attendance.map AttendanceRecord.fromData),
    attendanceCodes := some (d.attendanceCodes.map AttendanceCode.fromData),
    finalGrades := some (d.finalGrades.map FinalGrade.fromData) }

/-- The mutable world shared by the user and the api: a heap of
`PowerSchoolStudentInfo` objects addressed by reference, an allocation
counter, and the history of `storeCacheInfo` calls made on the api cache. -/
structure World where
  nextRef : Nat
  heap : List (Nat × StudentInfo)
  cacheCalls : List StoreCall
  deriving DecidableEq, Repr

/-- Read the object at reference `r`. -/
def heapLookup (h : List (Nat × StudentInfo)) (r : Nat) : Option StudentInfo :=
  (List.find? (fun p => p.1 = r) h).map (fun p => p.2)

/-- Mutate the object at reference `r` in place with `f`. -/
def heapModify (h : List (Nat × StudentInfo)) (r : Nat)
    (f : StudentInfo → StudentInfo) : List (Nat × StudentInfo) :=
  List.map (fun p => if p.1 = r then (p.1, f p.2) else p) h

/-- The part of a `PowerSchoolUser` the claims concern: the reference to the
`studentData` object created once in its constructor. -/
structure UserState where
  studentDataRef : Nat
  deriving DecidableEq, Repr

/-- Lines 32 to 37, `_initUserVariables` (run from the constructor):
allocate one fresh `PowerSchoolStudentInfo` and remember its reference. -/
def initUserVariables (w : World) : UserState × World :=
  let ref := w.nextRef
  ({ studentDataRef := ref },
   { w with nextRef := w.nextRef + 1, heap := w.heap ++ [(ref, {})] })

/-- The settled state of the promise `getStudentInfo` returns: rejected with
the transport `err` value, or resolved with a reference to a
`PowerSchoolStudentInfo` object. -/
inductive FetchResult where
  | rejected (err : Option JsErr)
  | resolved (ref : Nat)
  deriving DecidableEq, Repr

/-- Lines 60 to 110, the `getStudentData` callback of `getStudentInfo`, for
one transport response `(err, result)`: reject untouched when the payload
shape is absent, otherwise decode, make the eleven cache store calls,
overwrite the fields of the existing `studentData` object, and resolve with
that same object. -/
def getStudentInfo (u : UserState) (err : Option JsErr)
    (result : Option GetStudentDataResult) (w : World) : World × FetchResult :=
  match payloadOf result with
  | none => (w, .rejected err)
  | some d =>
    ({ w with
        cacheCalls := w.cacheCalls ++ storeCalls d,
        heap := heapModify w.heap u.studentDataRef (fun old => updateStudentData old d) },
     .resolved u.studentDataRef)

/-- One transport response fed to one `getStudentInfo` call. -/
def FetchInput : Type := Option JsErr × Option GetStudentDataResult

/-- Run a sequence of `getStudentInfo` calls on the same user, collecting
each settled promise. -/
def runFetches (u : UserState) : List FetchInput → World → World × List FetchResult
  | [], w => (w, [])
  | i :: rest, w =>
    let step := getStudentInfo u i.1 i.2 w
    let more := runFetches u rest step.1
    (more.1, step.2 :: more.2)

/-! Concrete sample data, used to evaluate the embedded program on explicit
inputs. -/

/-- A sample assignment matching category 1. -/
def sampleAssignment : Assignment := { id := 11, categoryID := 1 }

/-- A second sample assignment, matching category 2. -/
def sampleAssignmentB : Assignment := { id := 12, categoryID := 2 }

/-- A sample assignment whose category id matches no decoded category. -/
def sampleOrphan : Assignment := { id := 13, categoryID := 9 }

/-- A sample raw assignment category. -/
def sampleCategoryA : RawCategory := { id := 1, name := "HW" }

/-- A second sample raw assignment category. -/
def sampleCategoryB : RawCategory := { id := 2, name := "Quiz" }

/-- A sample well-formed flat payload. -/
def samplePayload : StudentDataVOs :=
  { schools := .obj { schoolNumber := 100 },
    teachers := [{ id := 3 }],
    terms := [{ id := 4 }],
    reportingTerms := [{ id := 5 }],
    assignments := [sampleAssignment, sampleAssignmentB, sampleOrphan],
    assignmentScores := [{ id := 6, assignmentID := 11 }],
    attendanceCodes := [{ id := 7 }],
    periods := [{ id := 8 }],
    sections := [{ id := 9 }],
    finalGrades := [{ id := 10, courseID := 9 }],
    assignmentCategories := [sampleCategoryA, sampleCategoryB],
    notInSessionDays := [{ id := 14 }],
    student := { id := 15 },
    attendance := [{ id := 16 }],
    yearId := 30 }

/-- A sample transport result carrying the sample payload in the expected
shape. -/
def sampleResult : GetStudentDataResult :=
  { ret := some { studentDataVOs := some samplePayload } }

/-- The empty initial world. -/
def sampleWorld : World := { nextRef := 0, heap := [], cacheCalls := [] }

/-- The user produced by running the constructor on the empty world. -/
def sampleUser : UserState := (initUserVariables sampleWorld).1

/-- The world after the constructor ran. -/
def sampleWorld1 : World := (initUserVariables sampleWorld).2

/-! Helper lemmas about the JS object model. -/

namespace JsIntObj

variable {α : Type}

theorem get?_cons (p : Nat × α) (t : JsIntObj α) (k : Nat) :
    get? (p :: t) k = if p.1 = k then some p.2 else get? t k := by
  by_cases h : p.1 = k <;> simp [get?, List.find?_cons, h]

theorem get?_set (m : JsIntObj α) (k k' : Nat) (v : α) :
    get? (set m k v) k' = if k = k' then some v else get? m k' := by
  induction m with
  | nil => by_cases h : k = k' <;> simp [set, get?, List.find?_cons, h]
  | cons p t ih =>
    by_cases hp : p.1 = k
    · rw [show set (p :: t) k v = (k, v) :: t from by simp [set, hp]]
      rw [get?_cons, get?_cons]
      by_cases h : k = k'
      · simp [h]
      · have hpk : ¬ p.1 = k' := fun e => h (hp.symm.trans e)
        simp [h, hpk]
    · rw [show set (p :: t) k v = p :: set t k v from by simp [set, hp]]
      rw [get?_cons, get?_cons, ih]
      by_cases hk : p.1 = k' <;> by_cases h : k = k'
      · exact absurd (hk.trans h.symm) hp
      · simp [hk, h]
      · simp [hk, h]
      · simp [hk, h]

theorem keys_set (m : JsIntObj α) (k : Nat) (v : α) :
    keys (set m k v) = if k ∈ keys m then keys m else keys m ++ [k] := by
  induction m with
  | nil => simp [set, keys]
  | cons p t ih =>
    by_cases hp : p.1 = k
    · rw [show set (p :: t) k v = (k, v) :: t from by simp [set, hp]]
      simp [keys, hp]
    · have hne : ¬ k = p.1 := fun e => hp e.symm
      rw [show set (p :: t) k v = p :: set t k v from by simp [set, hp]]
      show p.1 :: keys (set t k v) = _
      rw [ih]
      by_cases hk : k ∈ keys t
      · simp only [keys] at hk
        simp [keys, List.mem_cons, hne, hk]
      · simp only [keys] at hk
        simp [keys, List.mem_cons, hne, hk]

theorem nodup_keys_set (m : JsIntObj α) (k : Nat) (v : α)
    (h : (keys m).Nodup) : (keys (set m k v)).Nodup := by
  rw [keys_set]
  by_cases hk : k ∈ keys m
  · simpa [hk] using h
  · simp only [hk, if_false]
    simpa [List.nodup_append] using ⟨h, fun e => hk e⟩

theorem get?_eq_none_of_not_mem_keys (m : JsIntObj α) (k : Nat)
    (h : k ∉ keys m) : get? m k = none := by
  induction m with
  | nil => rfl
  | cons p t ih =>
    have hh : k ∉ p.1 :: keys t := h
    rw [get?_cons, if_neg (fun e => hh (by rw [← e]; exact List.mem_cons_self _ _))]
    exact ih (fun hk => hh (List.mem_cons_of_mem _ hk))

theorem get?_of_mem (m : JsIntObj α) (k : Nat) (v : α)
    (hnd : (keys m).Nodup) (h : (k, v) ∈ m) : get? m k = some v := by
  induction m with
  | nil => simp at h
  | cons p t ih =>
    have hkeys : keys (p :: t) = p.1 :: keys t := rfl
    rw [hkeys] at hnd
    have hpn : p.1 ∉ keys t := (List.nodup_cons.mp hnd).1
    have hnd' : (keys t).Nodup := (List.nodup_cons.mp hnd).2
    rcases List.mem_cons.mp h with he | ht
    · rw [← he, get?_cons, if_pos rfl]
    · have hmem : k ∈ keys t := List.mem_map_of_mem (fun q => q.1) ht
      rw [get?_cons, if_neg (fun e => hpn (by rw [e]; exact hmem))]
      exact ih hnd' ht

theorem mem_of_get? (m : JsIntObj α) (k : Nat) (v : α)
    (h : get? m k = some v) : (k, v) ∈ m := by
  induction m with
  | nil => simp [get?] at h
  | cons p t ih =>
    rw [get?_cons] at h
    by_cases hp : p.1 = k
    · rw [if_pos hp] at h
      cases p with
      | mk k0 v0 =>
        cases h
        exact List.mem_cons.mpr (Or.inl (by simp_all))
    · rw [if_neg hp] at h
      exact List.mem_cons_of_mem _ (ih h)

theorem mem_insertSorted (p q : Nat × α) (l : List (Nat × α)) :
    q ∈ insertSorted p l ↔ q = p ∨ q ∈ l := by
  induction l with
  | nil => simp [insertSorted]
  | cons r t ih =>
    by_cases h : p.1 ≤ r.1
    · simp [insertSorted, h]
    · simp [insertSorted, h, ih]
      tauto

theorem mem_sortByKey (q : Nat × α) (l : List (Nat × α)) :
    q ∈ sortByKey l ↔ q ∈ l := by
  induction l with
  | nil => simp [sortByKey]
  | cons r t ih => simp [sortByKey, mem_insertSorted, ih]

theorem mem_values (m : JsIntObj α) (v : α) :
    v ∈ values m ↔ ∃ k, (k, v) ∈ m := by
  simp only [values, List.mem_map]
  constructor
  · rintro ⟨p, hp, he⟩
    exact ⟨p.1, by simpa [← he] using (mem_sortByKey p m).mp hp⟩
  · rintro ⟨k, hk⟩
    exact ⟨(k, v), (mem_sortByKey (k, v) m).mpr hk, rfl⟩

end JsIntObj

/-! Helper lemmas about category aggregation. -/

theorem get?_pushAssignment (m : JsIntObj AssignmentCategory) (j : Nat)
    (a : Assignment) (k : Nat) :
    (pushAssignment m j a).get? k =
      if k = j then
        (m.get? k).map (fun c => { c with assignments := c.assignments ++ [a] })
      else m.get? k := by
  induction m with
  | nil => by_cases h : k = j <;> simp [pushAssignment, JsIntObj.get?, h]
  | cons p t ih =>
    have hcons : pushAssignment (p :: t) j a
        = (if p.1 = j then (p.1, { p.2 with assignments := p.2.assignments ++ [a] }) else p)
          :: pushAssignment t j a := rfl
    rw [hcons]
    by_cases hp : p.1 = j
    · rw [if_pos hp]
      simp only [JsIntObj.get?_cons, ih]
      by_cases h : p.1 = k
      · have hk : k = j := by rw [← h, hp]
        simp [h, hk]
      · simp [h]
    · rw [if_neg hp]
      simp only [JsIntObj.get?_cons, ih]
      by_cases h : p.1 = k
      · have hk : ¬ k = j := fun e => hp (by rw [h, e])
        simp [h, hk]
      · simp [h]

theorem keys_pushAssignment (m : JsIntObj AssignmentCategory) (j : Nat)
    (a : Assignment) : (pushAssignment m j a).keys = m.keys := by
  induction m with
  | nil => rfl
  | cons p t ih =>
    by_cases hp : p.1 = j <;> simpa [pushAssignment, JsIntObj.keys, hp] using ih

theorem foldl_push_get? (L : List Assignment) (m : JsIntObj AssignmentCategory)
    (k : Nat) :
    (L.foldl (fun acc a => pushAssignment acc a.categoryID a) m).get? k =
      (m.get? k).map (fun c =>
        { c with assignments :=
            c.assignments ++ L.filter (fun a => a.categoryID = k) }) := by
  induction L generalizing m with
  | nil => cases h : m.get? k <;> simp [h]
  | cons a L ih =>
    rw [List.foldl_cons, ih, get?_pushAssignment]
    cases hm : m.get? k with
    | none => split <;> simp
    | some c =>
      by_cases h : a.categoryID = k
      · have hk : k = a.categoryID := h.symm
        rw [if_pos hk]
        simp [List.filter_cons, h, List.append_assoc]
      · rw [if_neg (fun e => h e.symm)]
        simp [List.filter_cons, h]

theorem keys_foldl_push (L : List Assignment) (m : JsIntObj AssignmentCategory) :
    (L.foldl (fun acc a => pushAssignment acc a.categoryID a) m).keys = m.keys := by
  induction L generalizing m with
  | nil => rfl
  | cons a L ih => rw [List.foldl_cons, ih, keys_pushAssignment]

theorem mem_set {α : Type} (m : JsIntObj α) (k : Nat) (v : α) (q : Nat × α)
    (h : q ∈ JsIntObj.set m k v) : q ∈ m ∨ q = (k, v) := by
  induction m with
  | nil => simp [JsIntObj.set] at h; simp [h]
  | cons p t ih =>
    by_cases hp : p.1 = k
    · simp [JsIntObj.set, hp] at h
      rcases h with h | h
      · exact Or.inr (by simp [h])
      · exact Or.inl (List.mem_cons_of_mem _ h)
    · simp [JsIntObj.set, hp] at h
      rcases h with h | h
      · exact Or.inl (by simp [h])
      · rcases ih h with h | h
        · exact Or.inl (List.mem_cons_of_mem _ h)
        · exact Or.inr h

theorem foldl_set_get? (raws : List RawCategory) (m : JsIntObj AssignmentCategory)
    (k : Nat) (hnd : (raws.map RawCategory.id).Nodup) :
    (raws.foldl (fun acc r => acc.set r.id (AssignmentCategory.fromData r)) m).get? k =
      match raws.find? (fun r => r.id = k) with
      | some r => some (AssignmentCategory.fromData r)
      | none => m.get? k := by
  induction raws generalizing m with
  | nil => simp
  | cons r rs ih =>
    simp only [List.map_cons, List.nodup_cons] at hnd
    rw [List.foldl_cons, ih _ hnd.2]
    by_cases h : r.id = k
    · have hnone : rs.find? (fun r => decide (r.id = k)) = none := by
        rw [List.find?_eq_none]
        intro x hx
        simp only [decide_eq_true_eq]
        intro e
        apply hnd.1
        have hmm : x.id ∈ rs.map RawCategory.id := List.mem_map_of_mem RawCategory.id hx
        rwa [e, ← h] at hmm
      simp [hnone, List.find?_cons, h, JsIntObj.get?_set]
    · rw [show (r :: rs).find? (fun r => decide (r.id = k))
            = rs.find? (fun r => decide (r.id = k)) from by simp [List.find?_cons, h]]
      cases hfind : rs.find? (fun r => decide (r.id = k)) <;>
        simp [hfind, JsIntObj.get?_set, h]

theorem keys_foldl_set_nodup (raws : List RawCategory)
    (m : JsIntObj AssignmentCategory) (h : m.keys.Nodup) :
    (raws.foldl (fun acc r => acc.set r.id (AssignmentCategory.fromData r)) m).keys.Nodup := by
  induction raws generalizing m with
  | nil => exact h
  | cons r rs ih => exact ih _ (JsIntObj.nodup_keys_set _ _ _ h)

theorem mem_keys_foldl_set (raws : List RawCategory)
    (m : JsIntObj AssignmentCategory) (k : Nat)
    (h : k ∈ (raws.foldl (fun acc r => acc.set r.id (AssignmentCategory.fromData r)) m).keys) :
    k ∈ m.keys ∨ k ∈ raws.map RawCategory.id := by
  induction raws generalizing m with
  | nil => exact Or.inl h
  | cons r rs ih =>
    rw [List.foldl_cons] at h
    rcases ih _ h with h | h
    · rw [JsIntObj.keys_set] at h
      by_cases hk : r.id ∈ m.keys
      · simp [hk] at h
        exact Or.inl h
      · simp [hk] at h
        rcases h with h | h
        · exact Or.inl h
        · exact Or.inr (by simp [h])
    · exact Or.inr (by simp [h])

theorem assignments_nil_foldl_set (raws : List RawCategory)
    (m : JsIntObj AssignmentCategory) (hm : ∀ q ∈ m, q.2.assignments = [])
    (p : Nat × AssignmentCategory)
    (hp : p ∈ raws.foldl (fun acc r => acc.set r.id (AssignmentCategory.fromData r)) m) :
    p.2.assignments = [] := by
  induction raws generalizing m with
  | nil => exact hm p hp
  | cons r rs ih =>
    rw [List.foldl_cons] at hp
    refine ih (m.set r.id (AssignmentCategory.fromData r)) ?_ hp
    intro q hq
    rcases mem_set _ _ _ _ hq with h | h
    · exact hm q h
    · simp [h, AssignmentCategory.fromData]

theorem assignments_nil_of_mem_decodeCategories (raws : List RawCategory)
    (p : Nat × AssignmentCategory) (h : p ∈ decodeCategories raws) :
    p.2.assignments = [] :=
  assignments_nil_foldl_set raws JsIntObj.empty (by simp [JsIntObj.empty]) p h

theorem nodup_keys_decodeCategories (raws : List RawCategory) :
    (decodeCategories raws).keys.Nodup :=
  keys_foldl_set_nodup raws JsIntObj.empty (by simp [JsIntObj.empty, JsIntObj.keys])

theorem keys_aggregate (raws : List RawCategory) (asgs : List Assignment) :
    (aggregateCategories raws asgs).keys = (decodeCategories raws).keys := by
  unfold aggregateCategories
  exact keys_foldl_push _ _

theorem get?_aggregate (raws : List RawCategory) (asgs : List Assignment) (k : Nat) :
    (aggregateCategories raws asgs).get? k =
      ((decodeCategories raws).get? k).map (fun c =>
        { c with assignments := c.assignments ++ (List.filter (fun a => a.categoryID = k)
            (List.filter (fun a => ((decodeCategories raws).get? a.categoryID).isSome) asgs)) }) := by
  unfold aggregateCategories
  exact foldl_push_get? _ _ _

theorem get?_aggregate_of_some (raws : List RawCategory) (asgs : List Assignment)
    (k : Nat) (c : AssignmentCategory)
    (h : (decodeCategories raws).get? k = some c) :
    (aggregateCategories raws asgs).get? k =
      some { c with assignments :=
        c.assignments ++ asgs.filter (fun a => a.categoryID = k) } := by
  rw [get?_aggregate, h]
  simp only [Option.map_some']
  congr 2
  rw [List.filter_filter]
  congr 1
  refine List.filter_congr ?_
  intro a _
  by_cases ha : a.categoryID = k
  · simp [ha, h]
  · simp [ha]

theorem get?_aggregate_master (raws : List RawCategory) (asgs : List Assignment)
    (k : Nat) (hnd : (raws.map RawCategory.id).Nodup) :
    (aggregateCategories raws asgs).get? k =
      (raws.find? (fun r => r.id = k)).map (fun r =>
        { id := r.id, name := r.name,
          assignments := asgs.filter (fun a => a.categoryID = k) }) := by
  have hdec := foldl_set_get? raws JsIntObj.empty k hnd
  cases hfind : raws.find? (fun r => r.id = k) with
  | none =>
    have : (decodeCategories raws).get? k = none := by
      simpa [decodeCategories, hfind, JsIntObj.empty, JsIntObj.get?] using hdec
    rw [get?_aggregate, this]
    simp
  | some r =>
    have : (decodeCategories raws).get? k = some (AssignmentCategory.fromData r) := by
      simpa [decodeCategories, hfind] using hdec
    rw [get?_aggregate_of_some raws asgs k _ this]
    simp [AssignmentCategory.fromData]

/-! Helper lemmas about the fetch orchestrator and the object heap. -/

theorem heapModify_map_fst (h : List (Nat × StudentInfo)) (r : Nat)
    (f : StudentInfo → StudentInfo) :
    (heapModify h r f).map Prod.fst = h.map Prod.fst := by
  induction h with
  | nil => rfl
  | cons p t ih =>
    by_cases e : p.1 = r <;> simpa [heapModify, e] using ih

theorem getStudentInfo_nextRef (u : UserState) (err : Option JsErr)
    (res : Option GetStudentDataResult) (w : World) :
    (getStudentInfo u err res w).1.nextRef = w.nextRef := by
  rcases hp : payloadOf res with _ | d <;> simp [getStudentInfo, hp]

theorem getStudentInfo_heap_fst (u : UserState) (err : Option JsErr)
    (res : Option GetStudentDataResult) (w : World) :
    (getStudentInfo u err res w).1.heap.map Prod.fst = w.heap.map Prod.fst := by
  rcases hp : payloadOf res with _ | d <;>
    simp [getStudentInfo, hp, heapModify_map_fst]

theorem getStudentInfo_resolved_ref (u : UserState) (err : Option JsErr)
    (res : Option GetStudentDataResult) (w : World) (r : Nat)
    (h : (getStudentInfo u err res w).2 = FetchResult.resolved r) :
    r = u.studentDataRef := by
  rcases hp : payloadOf res with _ | d <;> simp [getStudentInfo, hp] at h
  exact h.symm

theorem runFetches_invariant (inputs : List FetchInput) (u : UserState) (w : World) :
    (runFetches u inputs w).1.nextRef = w.nextRef ∧
    (runFetches u inputs w).1.heap.map Prod.fst = w.heap.map Prod.fst ∧
    ∀ res ∈ (runFetches u inputs w).2, ∀ r, res = FetchResult.resolved r →
      r = u.studentDataRef := by
  induction inputs generalizing w with
  | nil => simp [runFetches]
  | cons i rest ih =>
    have hfst : (runFetches u (i :: rest) w).1
        = (runFetches u rest (getStudentInfo u i.1 i.2 w).1).1 := rfl
    have hsnd : (runFetches u (i :: rest) w).2
        = (getStudentInfo u i.1 i.2 w).2 :: (runFetches u rest (getStudentInfo u i.1 i.2 w).1).2 := rfl
    refine ⟨?_, ?_, ?_⟩
    · rw [hfst, (ih _).1, getStudentInfo_nextRef]
    · rw [hfst, (ih _).2.1, getStudentInfo_heap_fst]
    · intro res hres r hr
      rw [hsnd] at hres
      rcases List.mem_cons.mp hres with he | ht
      · exact getStudentInfo_resolved_ref u i.1 i.2 w r (he ▸ hr)
      · exact (ih _).2.2 res ht r hr

/-! The claims. -/

/-- C1: for every fetched payload whose decoded assignment-category ids are
unique, an assignment whose categoryID equals the id of a decoded category c
appears exactly once in the assignments list of c after the fetch, and in
the assignments list of no other decoded category. Value equality of
`Assignment` stands for JS object identity, so `ha` records that `a` denotes
one decoded assignment object of this payload. -/
theorem assignment_lands_exactly_in_its_category (d : StudentDataVOs)
    (a : Assignment) (c c' : AssignmentCategory)
    (hnd : (d.assignmentCategories.map RawCategory.id).Nodup)
    (ha : (d.assignments.map Assignment.fromData).count a = 1)
    (hc : c ∈ (aggregateCategories d.assignmentCategories
      (d.assignments.map Assignment.fromData)).values)
    (hc' : c' ∈ (aggregateCategories d.assignmentCategories
      (d.assignments.map Assignment.fromData)).values)
    (hmatch : a.categoryID = c.id) (hne : c'.id ≠ c.id) :
    c.assignments.count a = 1 ∧ a ∉ c'.assignments := by
  have hkeys : (aggregateCategories d.assignmentCategories
      (d.assignments.map Assignment.fromData)).keys.Nodup := by
    rw [keys_aggregate]
    exact nodup_keys_decodeCategories _
  have shape : ∀ x ∈ (aggregateCategories d.assignmentCategories
      (d.assignments.map Assignment.fromData)).values,
      x.assignments = (d.assignments.map Assignment.fromData).filter
        (fun b => b.categoryID = x.id) := by
    intro x hx
    rcases (JsIntObj.mem_values _ _).mp hx with ⟨k, hk⟩
    have hget := JsIntObj.get?_of_mem _ k x hkeys hk
    rw [get?_aggregate_master _ _ k hnd] at hget
    rcases Option.map_eq_some'.mp hget with ⟨r, hfind, hx2⟩
    have hrid : r.id = k := by
      have := List.find?_some hfind
      simpa using this
    rw [← hx2]
    simp [hrid]
  constructor
  · rw [shape c hc, ← hmatch]
    rw [List.count_filter (by simp)]
    exact ha
  · rw [shape c' hc']
    intro hmem
    have hpred : a.categoryID = c'.id := by
      simpa using (List.mem_filter.mp hmem).2
    exact hne (by rw [← hpred, hmatch])

/-- C1 witness: concrete payload, assignment 11 in category 1, checked
against category 1 and category 2 after aggregation. -/
theorem assignment_lands_exactly_in_its_category_witness :
    (AssignmentCategory.mk 1 "HW" [sampleAssignment]).assignments.count sampleAssignment = 1 ∧
    sampleAssignment ∉ (AssignmentCategory.mk 2 "Quiz" [sampleAssignmentB]).assignments :=
  assignment_lands_exactly_in_its_category samplePayload sampleAssignment
    _ _ (by decide) (by decide) (by decide) (by decide) (by decide) (by decide)

/-- C2: an assignment of the payload whose categoryID matches no decoded
category id is silently dropped from category aggregation: the fetch still
resolves, and the assignment appears in the assignments list of no decoded
category. -/
theorem unmatched_assignment_silently_dropped (u : UserState) (w : World)
    (err : Option JsErr) (res : Option GetStudentDataResult) (d : StudentDataVOs)
    (a : Assignment) (c : AssignmentCategory)
    (hres : payloadOf res = some d)
    (_hmem : a ∈ d.assignments)
    (hnocat : ∀ r ∈ d.assignmentCategories, r.id ≠ a.categoryID)
    (hc : c ∈ (aggregateCategories d.assignmentCategories
      (d.assignments.map Assignment.fromData)).values) :
    (getStudentInfo u err res w).2 = FetchResult.resolved u.studentDataRef ∧
    a ∉ c.assignments := by
  constructor
  · simp [getStudentInfo, hres]
  · have hkeys : (aggregateCategories d.assignmentCategories
        (d.assignments.map Assignment.fromData)).keys.Nodup := by
      rw [keys_aggregate]
      exact nodup_keys_decodeCategories _
    rcases (JsIntObj.mem_values _ _).mp hc with ⟨k, hk⟩
    have hget := JsIntObj.get?_of_mem _ k c hkeys hk
    rw [get?_aggregate] at hget
    rcases Option.map_eq_some'.mp hget with ⟨c0, hc0, hc2⟩
    have hnil : c0.assignments = [] :=
      assignments_nil_of_mem_decodeCategories _ (k, c0)
        (JsIntObj.mem_of_get? _ _ _ hc0)
    intro hmem2
    rw [← hc2] at hmem2
    simp only [hnil, List.nil_append] at hmem2
    have hsome : ((decodeCategories d.assignmentCategories).get? a.categoryID).isSome := by
      have := (List.mem_filter.mp hmem2).1
      exact (List.mem_filter.mp this).2
    rcases Option.isSome_iff_exists.mp hsome with ⟨c1, hc1⟩
    have hkmem : a.categoryID ∈ (decodeCategories d.assignmentCategories).keys :=
      List.mem_map_of_mem (fun q => q.1) (JsIntObj.mem_of_get? _ _ _ hc1)
    rcases mem_keys_foldl_set _ _ _ hkmem with h0 | h0
    · simp [JsIntObj.empty, JsIntObj.keys] at h0
    · rcases List.mem_map.mp h0 with ⟨r, hr, hrid⟩
      exact hnocat r hr hrid

/-- C2 witness: the sample payload contains assignment 13 with category id
9, which matches no category; the fetch resolves and the assignment is in
neither aggregated category. -/
theorem unmatched_assignment_silently_dropped_witness :
    (getStudentInfo sampleUser none (some sampleResult) sampleWorld1).2
        = FetchResult.resolved sampleUser.studentDataRef ∧
    sampleOrphan ∉ (AssignmentCategory.mk 1 "HW" [sampleAssignment]).assignments :=
  unmatched_assignment_silently_dropped sampleUser sampleWorld1 none
    (some sampleResult) samplePayload sampleOrphan _
    (by decide) (by decide) (by decide) (by decide)

/-- C3: a payload whose schools field arrives as a single object decodes to
exactly the one-element list holding the record decoded from that object;
that list is what the schools store call carries and what the snapshot
schools field is set to. -/
theorem single_school_object_normalized (o : RawSchool) (d : StudentDataVOs)
    (old : StudentInfo) (h : d.schools = RawSchools.obj o) :
    decodeSchools d.schools = [SchoolVal.ofObj o] ∧
    (updateStudentData old d).schools = some [SchoolVal.ofObj o] ∧
    ({ records := StoredRecords.schools [SchoolVal.ofObj o], name := "schools",
       keyField := some "schoolNumber" } : StoreCall) ∈ storeCalls d := by
  have hdec : decodeSchools d.schools = [SchoolVal.ofObj o] := by
    rw [h]
    simp [decodeSchools, jsTypeofSchools, SchoolVal.fromWhole]
  refine ⟨hdec, ?_, ?_⟩
  · simp [updateStudentData, hdec]
  · simp [storeCalls, hdec]

/-- C3 witness: the sample payload carries a single school object with
school number 100. -/
theorem single_school_object_normalized_witness :
    decodeSchools samplePayload.schools = [SchoolVal.ofObj (RawSchool.mk 100)] ∧
    (updateStudentData {} samplePayload).schools = some [SchoolVal.ofObj (RawSchool.mk 100)] ∧
    ({ records := StoredRecords.schools [SchoolVal.ofObj (RawSchool.mk 100)], name := "schools",
       keyField := some "schoolNumber" } : StoreCall) ∈ storeCalls samplePayload :=
  single_school_object_normalized (RawSchool.mk 100) samplePayload {} (by decide)

/-- C4: evaluation at the failing input. A schools field that arrives as a
list of two school objects is not normalized into two records: JS typeof
yields "object" for arrays, never "array", so the whole list is wrapped and
decoded as one junk record. The claim expects two decoded records, one per
element. -/
theorem list_schools_not_normalized :
    decodeSchools (RawSchools.arr [RawSchool.mk 100, RawSchool.mk 200])
        = [SchoolVal.ofArray [RawSchool.mk 100, RawSchool.mk 200]] ∧
    (decodeSchools (RawSchools.arr [RawSchool.mk 100, RawSchool.mk 200])).length = 1 := by
  decide

/-- C5: every store call of a fetch uses the key field prescribed for its
collection: schools are keyed by schoolNumber, final grades by courseID,
assignment scores by assignmentID, and every other collection by the
default key id. -/
theorem store_calls_use_prescribed_keys (d : StudentDataVOs) (call : StoreCall)
    (h : call ∈ storeCalls d) :
    call.resolvedKey = (if call.name = "schools" then "schoolNumber"
      else if call.name = "finalGrades" then "courseID"
      else if call.name = "assignmentScores" then "assignmentID" else "id") := by
  simp only [storeCalls, List.mem_cons, List.not_mem_nil, or_false] at h
  rcases h with h | h | h | h | h | h | h | h | h | h | h <;>
    · subst h
      rfl

/-- C5 witness: the teachers store call of the sample payload resolves to
the default key id. -/
theorem store_calls_use_prescribed_keys_witness :
    StoreCall.resolvedKey (StoreCall.mk (StoredRecords.teachers [Teacher.mk 3]) "teachers" none)
      = (if ("teachers" : String) = "schools" then "schoolNumber"
        else if ("teachers" : String) = "finalGrades" then "courseID"
        else if ("teachers" : String) = "assignmentScores" then "assignmentID" else "id") :=
  store_calls_use_prescribed_keys samplePayload
    (StoreCall.mk (StoredRecords.teachers [Teacher.mk 3]) "teachers" none)
    (by decide)

/-- C6 counterexample: for the sample payload, no store call is made for the
notInSessionDays or attendance collections, so it is false that every
collection of the payload is stored in the cache. -/
theorem not_in_session_days_and_attendance_never_stored :
    "notInSessionDays" ∉ (storeCalls samplePayload).map StoreCall.name ∧
    "attendance" ∉ (storeCalls samplePayload).map StoreCall.name := by
  decide

/-- C6 amended: a successful fetch makes exactly one store call for each of
the eleven cached collections, in source order; notInSessionDays and
attendance are decoded only into the snapshot, never stored in the cache. -/
theorem store_calls_cover_cached_collections (d : StudentDataVOs) :
    (storeCalls d).map StoreCall.name =
      ["teachers", "schools", "periods", "courses", "finalGrades", "terms",
       "reportingTerms", "assignmentCategories", "assignments",
       "assignmentScores", "attendanceCodes"] ∧
    "notInSessionDays" ∉ (storeCalls d).map StoreCall.name ∧
    "attendance" ∉ (storeCalls d).map StoreCall.name := by
  refine ⟨rfl, ?_, ?_⟩ <;>
    · rw [show (storeCalls d).map StoreCall.name =
          ["teachers", "schools", "periods", "courses", "finalGrades", "terms",
           "reportingTerms", "assignmentCategories", "assignments",
           "assignmentScores", "attendanceCodes"] from rfl]
      decide

/-- C7 counterexample: a transport-reported error accompanied by a
well-formed result does not reject; the fetch resolves with the snapshot
reference, so it is false that every transport error leads to rejection. -/
theorem transport_error_with_wellformed_result_resolves :
    (getStudentInfo sampleUser (some (JsErr.mk "network down"))
        (some sampleResult) sampleWorld1).2
      = FetchResult.resolved sampleUser.studentDataRef := by
  rfl

/-- C7 amended: whenever the transport result lacks the expected top-level
payload shape (no result, no result.return, or no
result.return.studentDataVOs), getStudentInfo rejects with the transport
err value and never resolves; the guard inspects only the result shape, so
a transport error accompanied by a well-formed result does not cause
rejection. -/
theorem malformed_payload_rejects (u : UserState) (w : World)
    (err : Option JsErr) (res : Option GetStudentDataResult)
    (h : payloadOf res = none) :
    (getStudentInfo u err res w).2 = FetchResult.rejected err := by
  simp [getStudentInfo, h]

/-- C7 witness: a result with an absent return member rejects with the
transport error. -/
theorem malformed_payload_rejects_witness :
    (getStudentInfo sampleUser (some (JsErr.mk "boom"))
        (some { ret := none }) sampleWorld1).2
      = FetchResult.rejected (some (JsErr.mk "boom")) :=
  malformed_payload_rejects sampleUser sampleWorld1 (some (JsErr.mk "boom"))
    (some { ret := none }) rfl

/-- C8: a failed fetch mutates nothing: the rejection happens before any
storeCacheInfo call and before any assignment to studentData fields, so the
cache call history, the object heap, and the whole world are exactly as
they were. -/
theorem failed_fetch_leaves_state_untouched (u : UserState) (w : World)
    (err : Option JsErr) (res : Option GetStudentDataResult)
    (h : payloadOf res = none) :
    (getStudentInfo u err res w).1 = w ∧
    (getStudentInfo u err res w).1.cacheCalls = w.cacheCalls ∧
    (getStudentInfo u err res w).1.heap = w.heap := by
  refine ⟨?_, ?_, ?_⟩ <;> simp [getStudentInfo, h]

/-- C8 witness: a transport failure arriving after one successful fetch
leaves the populated cache and snapshot world unchanged. -/
theorem failed_fetch_leaves_state_untouched_witness :
    (getStudentInfo sampleUser (some (JsErr.mk "down")) none
        (getStudentInfo sampleUser none (some sampleResult) sampleWorld1).1).1
      = (getStudentInfo sampleUser none (some sampleResult) sampleWorld1).1 ∧
    (getStudentInfo sampleUser (some (JsErr.mk "down")) none
        (getStudentInfo sampleUser none (some sampleResult) sampleWorld1).1).1.cacheCalls
      = (getStudentInfo sampleUser none (some sampleResult) sampleWorld1).1.cacheCalls ∧
    (getStudentInfo sampleUser (some (JsErr.mk "down")) none
        (getStudentInfo sampleUser none (some sampleResult) sampleWorld1).1).1.heap
      = (getStudentInfo sampleUser none (some sampleResult) sampleWorld1).1.heap :=
  failed_fetch_leaves_state_untouched sampleUser
    (getStudentInfo sampleUser none (some sampleResult) sampleWorld1).1
    (some (JsErr.mk "down")) none rfl

/-- C9 counterexample: PowerSchoolStudentInfo has no assignments field and
no assignmentScores field, so it is false that the snapshot owns a direct
list for every collection of the payload including those two. -/
theorem snapshot_lacks_assignment_lists :
    "assignments" ∉ studentInfoFields ∧ "assignmentScores" ∉ studentInfoFields := by
  decide

/-- C9 amended: a successful fetch overwrites the snapshot object so that it
owns a direct list for every collection of the payload except assignments
and assignmentScores (which are only stored in the relational cache), plus
the single student record and the year id scalar. -/
theorem snapshot_owns_collections (u : UserState) (w : World)
    (err : Option JsErr) (res : Option GetStudentDataResult) (d : StudentDataVOs)
    (old : StudentInfo) (h : payloadOf res = some d) :
    (getStudentInfo u err res w).1.heap
        = heapModify w.heap u.studentDataRef (fun o => updateStudentData o d) ∧
    (updateStudentData old d).schools = some (decodeSchools d.schools) ∧
    (updateStudentData old d).teachers = some (d.teachers.map Teacher.fromData) ∧
    (updateStudentData old d).periods = some (d.periods.map Period.fromData) ∧
    (updateStudentData old d).courses = some (d.sections.map Course.fromData) ∧
    (updateStudentData old d).terms = some (d.terms.map Term.fromData) ∧
    (updateStudentData old d).reportingTerms = some (d.reportingTerms.map ReportingTerm.fromData) ∧
    (updateStudentData old d).notInSessionDays = some (d.notInSessionDays.map Event.fromData) ∧
    (updateStudentData old d).student = some (Student.fromData d.student) ∧
    (updateStudentData old d).yearID = some d.yearId ∧
    (updateStudentData old d).assignmentCategories = some (aggregateCategories d.assignmentCategories (d.assignments.map Assignment.fromData)).values ∧
    (updateStudentData old d).attendanceRecords = some (d.attendance.map AttendanceRecord.fromData) ∧
    (updateStudentData old d).attendanceCodes = some (d.attendanceCodes.map AttendanceCode.fromData) ∧
    (updateStudentData old d).finalGrades = some (d.finalGrades.map FinalGrade.fromData) := by
  refine ⟨by simp [getStudentInfo, h], rfl, rfl, rfl, rfl, rfl, rfl, rfl, rfl, rfl, rfl, rfl, rfl, rfl⟩

/-- C9 witness: the amended snapshot-ownership statement evaluated on the
sample fetch. -/
theorem snapshot_owns_collections_witness :
    (getStudentInfo sampleUser none (some sampleResult) sampleWorld1).1.heap
        = heapModify sampleWorld1.heap sampleUser.studentDataRef (fun o => updateStudentData o samplePayload) ∧
    (updateStudentData {} samplePayload).schools = some (decodeSchools samplePayload.schools) ∧
    (updateStudentData {} samplePayload).teachers = some (samplePayload.teachers.map Teacher.fromData) ∧
    (updateStudentData {} samplePayload).periods = some (samplePayload.periods.map Period.fromData) ∧
    (updateStudentData {} samplePayload).courses = some (samplePayload.sections.map Course.fromData) ∧
    (updateStudentData {} samplePayload).terms = some (samplePayload.terms.map Term.fromData) ∧
    (updateStudentData {} samplePayload).reportingTerms = some (samplePayload.reportingTerms.map ReportingTerm.fromData) ∧
    (updateStudentData {} samplePayload).notInSessionDays = some (samplePayload.notInSessionDays.map Event.fromData) ∧
    (updateStudentData {} samplePayload).student = some (Student.fromData samplePayload.student) ∧
    (updateStudentData {} samplePayload).yearID = some samplePayload.yearId ∧
    (updateStudentData {} samplePayload).assignmentCategories = some (aggregateCategories samplePayload.assignmentCategories (samplePayload.assignments.map Assignment.fromData)).values ∧
    (updateStudentData {} samplePayload).attendanceRecords = some (samplePayload.attendance.map AttendanceRecord.fromData) ∧
    (updateStudentData {} samplePayload).attendanceCodes = some (samplePayload.attendanceCodes.map AttendanceCode.fromData) ∧
    (updateStudentData {} samplePayload).finalGrades = some (samplePayload.finalGrades.map FinalGrade.fromData) :=
  snapshot_owns_collections sampleUser sampleWorld1 none (some sampleResult)
    samplePayload {} rfl

/-- C10: every successful getStudentInfo call on a user resolves with the
very reference the constructor allocated for studentData, and a run of
fetches allocates no further object: later successful fetches overwrite the
fields of that same object in place instead of returning a fresh snapshot. -/
theorem fetches_alias_constructor_snapshot (w0 : World) (inputs : List FetchInput)
    (res : FetchResult) (r : Nat)
    (hres : res ∈ (runFetches (initUserVariables w0).1 inputs (initUserVariables w0).2).2)
    (hr : res = FetchResult.resolved r) :
    r = (initUserVariables w0).1.studentDataRef ∧
    (runFetches (initUserVariables w0).1 inputs (initUserVariables w0).2).1.nextRef
        = (initUserVariables w0).2.nextRef ∧
    (runFetches (initUserVariables w0).1 inputs (initUserVariables w0).2).1.heap.map Prod.fst
        = (initUserVariables w0).2.heap.map Prod.fst := by
  have hinv := runFetches_invariant inputs (initUserVariables w0).1 (initUserVariables w0).2
  exact ⟨hinv.2.2 res hres r hr, hinv.1, hinv.2.1⟩

/-- C10 witness: one successful fetch from the empty world resolves with
reference 0, the reference the constructor allocated. -/
theorem fetches_alias_constructor_snapshot_witness :
    (0 : Nat) = (initUserVariables sampleWorld).1.studentDataRef ∧
    (runFetches (initUserVariables sampleWorld).1 [(none, some sampleResult)]
        (initUserVariables sampleWorld).2).1.nextRef
      = (initUserVariables sampleWorld).2.nextRef ∧
    (runFetches (initUserVariables sampleWorld).1 [(none, some sampleResult)]
        (initUserVariables sampleWorld).2).1.heap.map Prod.fst
      = (initUserVariables sampleWorld).2.heap.map Prod.fst :=
  fetches_alias_constructor_snapshot sampleWorld [(none, some sampleResult)]
    (FetchResult.resolved 0) 0 (by decide) rfl

end PowerSchool
